import Mathlib


/-!
Verification of the impresso-make-cookbook upload / WIP-coordination core.

This file shallowly embeds the relevant parts of the repository:

* `lib/common.py`: `parse_s3_path`, `upload_with_retries`;
* `lib/local_to_s3.py`: the `--s3-file-exists` / WIP entry point and the
  main upload orchestration loop;
* `lib/s3_set_timestamp.py`: `S3TimestampProcessor.get_last_timestamp` and
  `S3TimestampProcessor.update_metadata_if_needed`.

Network interactions are modelled by explicit oracles (what digest a
checksum computation observed, whether an object exists, the age of a WIP
marker, ...), and the object store, where mutated, is an explicit
association list threaded through the definitions.  MD5 digests and ETags
are abstract strings supplied by the oracles; the code only ever compares
them for equality.
-/

/-- Model of `common.parse_s3_path`: an `s3://bucket/key` URI is split at the
first slash after the scheme; a missing scheme or a missing slash is a
`ValueError` (modelled as `Except.error`).  Mirrors `common.py:75-105`. -/
def splitOnceSlash : List Char → Option (List Char × List Char)
  | [] => none
  | c :: rest =>
    if c = '/' then some ([], rest)
    else
      match splitOnceSlash rest with
      | some (a, b) => some (c :: a, b)
      | none => none

def parse_s3_path (s : String) : Except String (String × String) :=
  if "s3://".data.isPrefixOf s.data then
    match splitOnceSlash (s.data.drop 5) with
    | some (b, k) => .ok (String.mk b, String.mk k)
    | none => .error "S3 path must include both bucket name and prefix"
  else .error "S3 path must start with s3://"

/-- One retry-loop iteration of `common.upload_with_retries`
(`common.py:400-447`), as observed through the S3 oracles:

* `tmpMd5 = none`: the `upload_file` or the streaming-back checksum of the
  temp object raised; the generic `except` catches it and the loop retries.
* `tmpMd5 = some d`: the temp object streamed back with digest `d`.
* `finalMd5` is consulted only when `d` matched the local digest and the
  promoting `copy_object` ran: `none` means the copy or the re-checksum
  raised, `some d2` is the digest of the final destination object streamed
  back after the copy.

The temp-object delete in the `finally` block always succeeds in the model
(S3 deletes of arbitrary keys do not fail) and has no further observable
effect on the loop. -/
structure AttemptObs where
  tmpMd5 : Option String
  finalMd5 : Option String
  deriving DecidableEq, Repr

/-- Model of `common.upload_with_retries` (`common.py:376-453`).  The local
MD5 is computed once before the loop; the list argument is the sequence of
attempt observations, of length `max_retries`.  Note that the
`raise ValueError(... probably corrupted ...)` on a post-copy mismatch is
raised inside the same `try` whose `except Exception` catches it, so in the
source a post-copy mismatch falls through to the next retry, and to
`return False` after exhaustion. -/
def upload_with_retries (localMd5 : String) : List AttemptObs → Bool
  | [] => false
  | a :: rest =>
    match a.tmpMd5 with
    | none => upload_with_retries localMd5 rest
    | some d =>
      if d = localMd5 then
        match a.finalMd5 with
        | none => upload_with_retries localMd5 rest
        | some d2 =>
          if d2 = localMd5 then true
          else upload_with_retries localMd5 rest
      else upload_with_retries localMd5 rest

/-! ## Object store model for `s3_set_timestamp.update_metadata_if_needed` -/

/-- An object body, abstractly a list of bytes. -/
abbrev Body := List Nat

/-- A stored object: body bytes, custom metadata map, content type. -/
structure S3Obj where
  body : Body
  meta : List (String × String)
  contentType : String
  deriving DecidableEq, Repr

/-- The store: an association list from `(bucket, key)` to objects.
`storeGet` takes the first (most recent) binding. -/
abbrev Store := List ((String × String) × S3Obj)

def storeGet (s : Store) (bk : String × String) : Option S3Obj :=
  (s.find? (fun e => e.1 = bk)).map (·.2)

/-- PUT/COPY target semantics: the new binding shadows older ones. -/
def storePut (s : Store) (bk : String × String) (o : S3Obj) : Store :=
  (bk, o) :: s

/-- DELETE removes every binding of the key. -/
def storeDel (s : Store) (bk : String × String) : Store :=
  s.filter (fun e => !(e.1 = bk : Bool))

def metaGet (m : List (String × String)) (k : String) : Option String :=
  (m.find? (fun e => e.1 = k)).map (·.2)

/-- Python `dict` update: set `k` to `v`, replacing an existing entry. -/
def metaSet (m : List (String × String)) (k v : String) : List (String × String) :=
  (k, v) :: m.filter (fun e => !(e.1 = k : Bool))

/-- Model of `S3TimestampProcessor.update_metadata_if_needed`
(`s3_set_timestamp.py:438-567`), for the in-place destination
(`output_s3_uri = None`).

* `etag` is the store-reported ETag of a body; the code only compares
  ETags for equality.
* `ts` stands for the value returned by `get_last_timestamp` on the
  downloaded body (timestamp extraction is modelled separately by
  `get_last_timestamp`); the download itself has no store effect.
* The server-side copies may corrupt data: the oracle arguments `b1` and
  `b2` are the bodies that actually land at `<key>.backup` and (after the
  metadata-replacing self-copy) at `key`.  A well-behaved store has
  `b1 = b2 = obj.body`.
* The backup delete is best-effort: the source wraps it in a
  `try/except Exception` that only logs a failure
  (`s3_set_timestamp.py:555-562`), so the call completes successfully
  either way.  The oracle `delOk` says whether the `delete_object` call
  succeeded; when it fails, `<key>.backup` stays in the store.

Raised `ValueError`s are `Except.error` with the source's message. -/
def update_metadata_if_needed (etag : Body → String) (store : Store)
    (bucket key metadata_key ts : String) (force : Bool)
    (b1 b2 : Body) (delOk : Bool) : Except String Store :=
  match storeGet store (bucket, key) with
  | none => .error "head_object failed"
  | some obj =>
    if (metaGet obj.meta metadata_key).isSome && !force then
      .error "Metadata key already exists."
    else
      let backupKey := key ++ ".backup"
      let store1 := storePut store (bucket, backupKey) ⟨b1, obj.meta, obj.contentType⟩
      match storeGet store1 (bucket, key), storeGet store1 (bucket, backupKey) with
      | some origHead, some backupHead =>
        if etag origHead.body ≠ etag backupHead.body then
          .error "Backup checksum mismatch. The backup file is not identical to the original."
        else
          let updatedMeta := metaSet obj.meta metadata_key ts
          let store2 := storePut store1 (bucket, key) ⟨b2, updatedMeta, obj.contentType⟩
          match storeGet store2 (bucket, key) with
          | some updatedHead =>
            if etag updatedHead.body = etag backupHead.body then
              .ok (if delOk then storeDel store2 (bucket, backupKey) else store2)
            else .error "Checksum mismatch between updated file and backup."
          | none => .error "head_object failed"
      | _, _ => .error "head_object failed"

/-! ## `S3TimestampProcessor.get_last_timestamp` (`s3_set_timestamp.py:346-436`) -/

/-- A parsed `datetime`, compared lexicographically (year, month, day,
hour, minute, second). -/
structure Dt where
  year : Nat
  month : Nat
  day : Nat
  hour : Nat
  minute : Nat
  second : Nat
  deriving DecidableEq, Repr

/-- Python `datetime.__gt__`: lexicographic comparison. -/
def dtGt (a b : Dt) : Bool :=
  (b.year < a.year) ||
    (b.year = a.year && ((b.month < a.month) ||
      (b.month = a.month && ((b.day < a.day) ||
        (b.day = a.day && ((b.hour < a.hour) ||
          (b.hour = a.hour && ((b.minute < a.minute) ||
            (b.minute = a.minute && (b.second < a.second))))))))))

/-- The two `strptime` patterns in `known_formats`:
`"%Y-%m-%dT%H:%M:%SZ"` (`iso`) and `"%Y-%m-%d %H:%M:%S"` (`cdt`). -/
inductive TsFmt
  | iso
  | cdt
  deriving DecidableEq, Repr

def digitVal (c : Char) : Option Nat :=
  if c.isDigit then some (c.toNat - 48) else none

def digits2 : List Char → Option (Nat × List Char)
  | a :: b :: rest =>
    match digitVal a, digitVal b with
    | some x, some y => some (10 * x + y, rest)
    | _, _ => none
  | _ => none

def digits4 (cs : List Char) : Option (Nat × List Char) :=
  match digits2 cs with
  | some (x, r) =>
    match digits2 r with
    | some (y, r2) => some (100 * x + y, r2)
    | none => none
  | none => none

def litChar (c : Char) : List Char → Option (List Char)
  | x :: rest => if x = c then some rest else none
  | [] => none

/-- Model of `datetime.strptime` restricted to the two patterns the source
uses, on canonical zero-padded inputs: four year digits, two digits for
each other field, the literal separators of the pattern, nothing left over,
and the field ranges `strptime` enforces (month 1-12, day 1-31, hour 0-23,
minute 0-59, second 0-61). -/
def strptime (fmt : TsFmt) (s : String) : Option Dt := do
  let (y, r1) ← digits4 s.data
  let r2 ← litChar '-' r1
  let (mo, r3) ← digits2 r2
  let r4 ← litChar '-' r3
  let (d, r5) ← digits2 r4
  let r6 ← litChar (if fmt = TsFmt.iso then 'T' else ' ') r5
  let (h, r7) ← digits2 r6
  let r8 ← litChar ':' r7
  let (mi, r9) ← digits2 r8
  let r10 ← litChar ':' r9
  let (sec, r11) ← digits2 r10
  let r12 ← if fmt = TsFmt.iso then litChar 'Z' r11 else pure r11
  if r12 = [] ∧ 1 ≤ mo ∧ mo ≤ 12 ∧ 1 ≤ d ∧ d ≤ 31 ∧ h ≤ 23 ∧ mi ≤ 59 ∧ sec ≤ 61 then
    pure ⟨y, mo, d, h, mi, sec⟩
  else none

/-- The `known_formats` table (`s3_set_timestamp.py:367-371`), in dict
insertion order. -/
def known_formats : List (String × TsFmt) :=
  [("ts", TsFmt.iso), ("cdt", TsFmt.cdt), ("timestamp", TsFmt.iso)]

def pad2 (n : Nat) : String :=
  if n < 10 then "0" ++ toString n else toString n

def pad4 (n : Nat) : String :=
  if n < 10 then "000" ++ toString n
  else if n < 100 then "00" ++ toString n
  else if n < 1000 then "0" ++ toString n
  else toString n

/-- Model of `datetime.strftime("%Y-%m-%dT%H:%M:%SZ")`. -/
def formatDt (t : Dt) : String :=
  pad4 t.year ++ "-" ++ pad2 t.month ++ "-" ++ pad2 t.day ++ "T" ++
    pad2 t.hour ++ ":" ++ pad2 t.minute ++ ":" ++ pad2 t.second ++ "Z"

/-- A parsed JSONL record: its string-valued fields. -/
abbrev JsonRecord := List (String × String)

def recordGet (r : JsonRecord) (k : String) : Option String :=
  (r.find? (fun e => e.1 = k)).map (·.2)

/-- Python truthiness of `record.get(k)`: `None` and the empty string are
falsy, so they fall through the `or` chain. -/
def truthyGet (r : JsonRecord) (k : String) : Option String :=
  match recordGet r k with
  | some s => if s = "" then none else some s
  | none => none

/-- Model of `record.get(ts_key) or record.get("cdt") or record.get("timestamp")`
followed by `if ts_str:` (`s3_set_timestamp.py:386-391`): the first truthy
value among the three lookups, if any. -/
def tsLookup (r : JsonRecord) (ts_key : String) : Option String :=
  (truthyGet r ts_key).orElse fun _ =>
    (truthyGet r "cdt").orElse fun _ => truthyGet r "timestamp"

/-- The per-line parse loop (`s3_set_timestamp.py:392-403`): iterate over
ALL entries of `known_formats` in order and return the first `strptime`
success.  Note the source does not restrict the parse to the format
associated with `ts_key`; the `fmt` looked up earlier is unused here. -/
def tryKnownFormats : List (String × TsFmt) → String → Option Dt
  | [], _ => none
  | (_, f) :: rest, s =>
    match strptime f s with
    | some dt => some dt
    | none => tryKnownFormats rest s

/-- Outcome of the line scan: an early return of the first parsed
timestamp (`all_lines = False`), or the tracked maximum (if any) at end of
stream. -/
inductive ScanOut
  | firstFound (dt : Dt)
  | finished (latest : Option Dt)
  deriving DecidableEq, Repr

/-- The line loop of `get_last_timestamp` (`s3_set_timestamp.py:382-418`).
A line is `none` when `json.loads` raised (skipped), otherwise the parsed
record.  A line with no truthy timestamp value is passed over; a value no
known format parses raises a `ValueError` caught by the per-line handler
(record skipped). -/
def scanLines (ts_key : String) (all_lines : Bool) :
    List (Option JsonRecord) → Option Dt → ScanOut
  | [], latest => .finished latest
  | line :: rest, latest =>
    match line with
    | none => scanLines ts_key all_lines rest latest
    | some r =>
      match tsLookup r ts_key with
      | none => scanLines ts_key all_lines rest latest
      | some s =>
        match tryKnownFormats known_formats s with
        | none => scanLines ts_key all_lines rest latest
        | some dt =>
          if !all_lines then .firstFound dt
          else
            match latest with
            | none => scanLines ts_key all_lines rest (some dt)
            | some l =>
              scanLines ts_key all_lines rest (some (if dtGt dt l then dt else l))

/-- Model of `S3TimestampProcessor.get_last_timestamp`
(`s3_set_timestamp.py:346-436`).  `mtime` is the downloaded temp file's
modification time, the fallback when no valid timestamp is found.  An
unknown `ts_key` raises (re-wrapped by the outer handler into
`"Error processing timestamps: ..."`). -/
def get_last_timestamp (ts_key : String) (all_lines : Bool)
    (lines : List (Option JsonRecord)) (mtime : Dt) : Except String String :=
  match known_formats.find? (fun e => e.1 = ts_key) with
  | none =>
    .error ("Error processing timestamps: Unknown timestamp format for key: " ++ ts_key)
  | some _ =>
    match scanLines ts_key all_lines lines none with
    | .firstFound dt => .ok (formatDt dt)
    | .finished (some latest) => .ok (formatDt latest)
    | .finished none => .ok (formatDt mtime)

/-! ## `local_to_s3.main`: store events and WIP helpers -/

/-- Observable store mutations / attempts issued by `local_to_s3.main`. -/
inductive Event
  | putWip (bucket key : String)
  | uploadAttempt (localPath bucket key : String)
  | localTruncate (localPath : String)
  | deleteWip (bucket key : String)
  | setTsMeta (bucket key : String)
  deriving DecidableEq, Repr

/-- Python `str.endswith` / `str.startswith`, over the character lists (the
built-in `String` operations do not reduce in the kernel). -/
def strEndsWith (s suffix : String) : Bool :=
  suffix.data.isSuffixOf s.data

def strStartsWith (s pre : String) : Bool :=
  pre.data.isPrefixOf s.data

/-- Pairing `[(files[i], files[i+1]) for i in range(0, len(files), 2)]` on an
even-length list (`local_to_s3.py:413-415`). -/
def chunk2 : List String → List (String × String)
  | a :: b :: rest => (a, b) :: chunk2 rest
  | _ => []

/-- The same comprehension where an odd-length list raises `IndexError`
(the `--s3-file-exists` path never validates evenness,
`local_to_s3.py:314-317`). -/
def chunk2E : List String → Option (List (String × String))
  | [] => some []
  | a :: b :: rest => (chunk2E rest).map (fun l => (a, b) :: l)
  | _ :: [] => none

/-- The WIP creation loop (`local_to_s3.py:318-339` and its duplicate
`local_to_s3.py:392-412`): for each pair whose local path ends in
`.txt.gz` or `.jsonl.bz2`, PUT `<s3_path>.wip`.  `parse_s3_path` runs
outside the inner `try`, so a malformed S3 path raises out of the loop
(second component `true`), with the markers already PUT kept; a failing
`put_object` is only logged, modelled as the PUT succeeding. -/
def createWips : List (String × String) → List Event × Bool
  | [] => ([], false)
  | (lp, sp) :: rest =>
    if strEndsWith lp ".txt.gz" || strEndsWith lp ".jsonl.bz2" then
      match parse_s3_path (sp ++ ".wip") with
      | .error _ => ([], true)
      | .ok (b, k) =>
        match createWips rest with
        | (evs, err) => (Event.putWip b k :: evs, err)
    else createWips rest

/-- Result of the `--s3-file-exists` entry point
(`local_to_s3.py:234-352`): the process exit code, whether a stale WIP
marker was deleted, and the WIP-creation events. -/
structure ExistsCheckResult where
  exitCode : Nat
  staleWipDeleted : Bool
  wipEvents : List Event
  deriving DecidableEq, Repr

/-- Outcome of the WIP-marker inspection (`local_to_s3.py:243-294`). -/
inductive WipStep
  | fatal
  | held
  | acquiredClean
  | acquiredReclaimed
  deriving DecidableEq, Repr

/-- The WIP-marker inspection (`local_to_s3.py:243-294`): HEAD
`<dest>.wip`; absent (or HEAD error, treated as absent) proceeds; a marker
older than `wip_max_age` hours is deleted (reclaimed) and processing
proceeds; otherwise the marker is live and the caller exits 2.  The
`wipAge` oracle is the marker age in hours as an exact rational. -/
def wipCheckStep (destPath : String) (wipAge : Option ℚ) (wipMaxAge : ℚ) : WipStep :=
  match parse_s3_path (destPath ++ ".wip") with
  | .error _ => .fatal
  | .ok _ =>
    match wipAge with
    | none => .acquiredClean
    | some age => if age > wipMaxAge then .acquiredReclaimed else .held

/-- The WIP-creation phase of the existence check
(`local_to_s3.py:295-349`): when `--create-wip` is set and file arguments
were given, pair them up (an odd count raises `IndexError`, exit 1), PUT
the markers and exit 0; otherwise exit 1.  `d` records whether a stale
marker was deleted earlier. -/
def createWipPhase (createWipFlag : Bool) (files : List String) (d : Bool) :
    ExistsCheckResult :=
  if createWipFlag && !files.isEmpty then
    match chunk2E files with
    | none => ⟨1, d, []⟩
    | some pairs =>
      match createWips pairs with
      | (evs, err) => if err then ⟨1, d, evs⟩ else ⟨0, d, evs⟩
  else ⟨1, d, []⟩

/-- Model of the `--s3-file-exists` branch of `local_to_s3.main`
(`local_to_s3.py:234-352`).

Oracles: `destExists` is the (successful) HEAD result for the
destination; `wipAge` as in `wipCheckStep`.  `create_wip` implies `wip`
(`local_to_s3.py:227-228`), and the marker inspection runs only when the
destination is absent and WIP checking is on.  Any exception inside the
outer `try` ends in `sys.exit(1)` (`local_to_s3.py:350-352`). -/
def s3FileExistsCheck (destPath : String) (destExists : Bool)
    (wipFlag createWipFlag : Bool) (wipAge : Option ℚ) (wipMaxAge : ℚ)
    (files : List String) : ExistsCheckResult :=
  match parse_s3_path destPath with
  | .error _ => ⟨1, false, []⟩
  | .ok _ =>
    if destExists then ⟨0, false, []⟩
    else
      if wipFlag || createWipFlag then
        match wipCheckStep destPath wipAge wipMaxAge with
        | .fatal => ⟨1, false, []⟩
        | .held => ⟨2, false, []⟩
        | .acquiredClean => createWipPhase createWipFlag files false
        | .acquiredReclaimed => createWipPhase createWipFlag files true
      else createWipPhase createWipFlag files false

/-! ## The upload orchestration loop of `local_to_s3.main`
(`local_to_s3.py:354-734`) -/

/-- Parsed command-line flags of `local_to_s3.main` (upload mode, i.e.
`--s3-file-exists` not given). -/
structure Args where
  files : List String
  forceOverwrite : Bool
  uploadIfNewer : Bool
  keepTimestampOnly : Bool
  setTimestamp : Bool
  createWip : Bool
  removeWip : Bool
  forbidExtensions : List String
  deriving DecidableEq, Repr

/-- A local file as the loop observes it: `os.path.getsize` and
`os.path.getmtime` (epoch seconds, exact rational). -/
structure LocalFile where
  size : Nat
  mtime : ℚ
  deriving DecidableEq, Repr

def fsGet (fs : List (String × LocalFile)) (p : String) : Option LocalFile :=
  (fs.find? (fun e => e.1 = p)).map (·.2)

/-- Model of `keep_timestamp_only` (`common.py:508-558`): truncate to zero bytes and
set the mtime (here: to the current time `now`). -/
def fsSet (fs : List (String × LocalFile)) (p : String) (f : LocalFile) :
    List (String × LocalFile) :=
  (p, f) :: fs.filter (fun e => !(e.1 = p : Bool))

/-- Read-only S3 oracles for the upload loop.  `s3Exists b k` is the
(successful) HEAD existence result for a pre-existing key; `s3TsMeta b k`
is the destination's `impresso-last-ts`-style metadata timestamp, already
parsed to epoch seconds — `none` merges the cases "no metadata value",
"HEAD raised" and "value unparseable", all of which the source treats as
"upload to be safe" (`local_to_s3.py:542-558`). -/
structure S3View where
  s3Exists : String → String → Bool
  s3TsMeta : String → String → Option ℚ

/-- Per-pair transfer outcome (spec `TransferOutcome`, plus the
dependent-log skip). -/
inductive Outcome
  | uploaded
  | skippedExists
  | skippedStamp
  | skippedUpToDate
  | skippedDependent
  | failedUpload
  deriving DecidableEq, Repr

/-- Loop-carried state: the local filesystem (mutated by
`keep_timestamp_only`), the keys this run created on S3, the
`uploaded_content_files` set and the `uploaded_files` list. -/
structure LoopState where
  fs : List (String × LocalFile)
  created : List (String × String)
  uploadedContent : List String
  uploaded : List (String × String)
  deriving DecidableEq, Repr

/-- How one pair resolves (`local_to_s3.py:447-631`): a `sys.exit(1)` /
uncaught exception, a skip, a failed upload, or a successful upload with
its events and updated state. -/
inductive Resolution
  | fatal
  | skip (oc : Outcome)
  | failed (evs : List Event)
  | success (evs : List Event) (st : LoopState)
  deriving DecidableEq, Repr

/-- Test `is_log_file and corresponding_content_file in uploaded_content_files`
(`local_to_s3.py:437-444` and `479`): the current local path ends in
`.log.gz`, the previous pair's local path is a non-log prefix of it, and
that previous path was uploaded this run. -/
def isForcedLog (st : LoopState) (prev : Option (String × String))
    (lp : String) : Bool :=
  strEndsWith lp ".log.gz" &&
    (match prev with
     | some pr =>
       strStartsWith lp pr.1 && !strEndsWith pr.1 ".log.gz" &&
         decide (pr.1 ∈ st.uploadedContent)
     | none => false)

/-- Stamp-file test (`local_to_s3.py:495-497`): 0 bytes, or 14 bytes with
a `.bz2` name. -/
def isStampFile (lp : String) (size : Nat) : Bool :=
  size == 0 || (strEndsWith lp ".bz2" && size == 14)

/-- Outcome of the skip decision (`local_to_s3.py:476-582`). -/
inductive SkipDec
  | sdFatal
  | sdSkip (oc : Outcome)
  | sdUpload
  deriving DecidableEq, Repr

/-- The skip decision (`local_to_s3.py:476-582`): a forced log companion
is always uploaded; under `--force-overwrite` everything is uploaded;
otherwise the destination is parsed (a malformed URI raises out of the
loop) and checked for existence (keys created earlier in this run count);
under `--upload-if-newer` stamp files are skipped and non-stamp files are
compared against the metadata timestamp (missing/unreadable metadata means
upload); without `--upload-if-newer` an existing destination is skipped. -/
def skipDecision (args : Args) (view : S3View) (st : LoopState)
    (prev : Option (String × String)) (p : String × String)
    (f : LocalFile) : SkipDec :=
  if isForcedLog st prev p.1 then .sdUpload
  else if !args.forceOverwrite then
    match parse_s3_path p.2 with
    | .error _ => .sdFatal
    | .ok (b, k) =>
      if view.s3Exists b k || decide ((b, k) ∈ st.created) then
        if args.uploadIfNewer then
          if isStampFile p.1 f.size then .sdSkip .skippedStamp
          else
            match view.s3TsMeta b k with
            | some ts => if ts < f.mtime then .sdUpload else .sdSkip .skippedUpToDate
            | none => .sdUpload
        else .sdSkip .skippedExists
      else
        if args.uploadIfNewer then
          if isStampFile p.1 f.size then .sdSkip .skippedStamp else .sdUpload
        else .sdUpload
  else .sdUpload

/-- The upload step (`local_to_s3.py:594-631`): `upload_with_retries`
first parses the destination (a malformed URI raises, `common.py:396`);
the retry loop's net verdict is the `uploadOk` oracle.  On success the
pair is recorded (content files into `uploaded_content_files`), and under
`--keep-timestamp-only` the local file is truncated with its mtime set to
now. -/
def uploadStep (args : Args) (uploadOk : String → String → Bool) (now : ℚ)
    (st : LoopState) (p : String × String) : Resolution :=
  match parse_s3_path p.2 with
  | .error _ => .fatal
  | .ok (b, k) =>
    if uploadOk p.1 p.2 then
      .success
        (Event.uploadAttempt p.1 b k ::
          (if args.keepTimestampOnly then [Event.localTruncate p.1] else []))
        ⟨(if args.keepTimestampOnly then fsSet st.fs p.1 ⟨0, now⟩ else st.fs),
          (b, k) :: st.created,
          (if strEndsWith p.1 ".log.gz" then st.uploadedContent
           else p.1 :: st.uploadedContent),
          st.uploaded ++ [p]⟩
    else .failed [Event.uploadAttempt p.1 b k]

/-- One pair's resolution (`local_to_s3.py:447-631`): forbidden extension,
missing local file and zero-byte local file are fatal (`sys.exit(1)`),
then the skip decision, then the upload step. -/
def resolvePair (args : Args) (view : S3View) (uploadOk : String → String → Bool)
    (now : ℚ) (st : LoopState) (prev : Option (String × String))
    (p : String × String) : Resolution :=
  if args.forbidExtensions.any (fun e => strEndsWith p.1 e) then .fatal
  else
    match fsGet st.fs p.1 with
    | none => .fatal
    | some f =>
      if f.size = 0 then .fatal
      else
        match skipDecision args view st prev p f with
        | .sdFatal => .fatal
        | .sdSkip oc => .skip oc
        | .sdUpload => uploadStep args uploadOk now st p

/-- Test `file_pairs[pair_idx + 1][0].startswith(local_path) and ... .endswith
(".log.gz")` (`local_to_s3.py:430-434`). -/
def isContentOf (lp nextLp : String) : Bool :=
  strStartsWith nextLp lp && strEndsWith nextLp ".log.gz"

/-- Result of the pair loop: per-pair `(outcome, events)` in input order,
final state, and the exit code when the loop aborted the process. -/
structure PairsResult where
  results : List (Outcome × List Event)
  st : LoopState
  exit : Option Nat
  deriving DecidableEq, Repr

/-- The pair loop (`local_to_s3.py:425-631`).  A content pair (the next
pair is its `.log.gz` companion) that is skipped or fails drags its log
pair along: `pair_idx += 2` without the log pair being processed at all
(outcome `skippedDependent`, no events). -/
def processPairs (args : Args) (view : S3View) (uploadOk : String → String → Bool)
    (now : ℚ) : LoopState → Option (String × String) →
    List (String × String) → PairsResult
  | st, _, [] => ⟨[], st, none⟩
  | st, prev, p :: rest =>
    match resolvePair args view uploadOk now st prev p with
    | .fatal => ⟨[], st, some 1⟩
    | .skip oc =>
      match rest with
      | q :: rest2 =>
        if isContentOf p.1 q.1 then
          match processPairs args view uploadOk now st (some q) rest2 with
          | ⟨rs, st2, ex⟩ => ⟨(oc, []) :: (.skippedDependent, []) :: rs, st2, ex⟩
        else
          match processPairs args view uploadOk now st (some p) (q :: rest2) with
          | ⟨rs, st2, ex⟩ => ⟨(oc, []) :: rs, st2, ex⟩
      | [] => ⟨[(oc, [])], st, none⟩
    | .failed evs =>
      match rest with
      | q :: rest2 =>
        if isContentOf p.1 q.1 then
          match processPairs args view uploadOk now st (some q) rest2 with
          | ⟨rs, st2, ex⟩ =>
            ⟨(.failedUpload, evs) :: (.skippedDependent, []) :: rs, st2, ex⟩
        else
          match processPairs args view uploadOk now st (some p) (q :: rest2) with
          | ⟨rs, st2, ex⟩ => ⟨(.failedUpload, evs) :: rs, st2, ex⟩
      | [] => ⟨[(.failedUpload, evs)], st, none⟩
    | .success evs st1 =>
      match processPairs args view uploadOk now st1 (some p) rest with
      | ⟨rs, st2, ex⟩ => ⟨(.uploaded, evs) :: rs, st2, ex⟩

/-- The WIP removal loop (`local_to_s3.py:634-643`) over the uploaded
pairs: same suffix filter as creation; `parse_s3_path` runs before the
inner `try`, so a malformed URI raises out of the loop (second component
`true`); a failing delete is only logged, modelled as succeeding. -/
def removeWips : List (String × String) → List Event × Bool
  | [] => ([], false)
  | (lp, sp) :: rest =>
    if strEndsWith lp ".txt.gz" || strEndsWith lp ".jsonl.bz2" then
      match parse_s3_path (sp ++ ".wip") with
      | .error _ => ([], true)
      | .ok (b, k) =>
        match removeWips rest with
        | (evs, err) => (Event.deleteWip b k :: evs, err)
    else removeWips rest

/-- The `--set-timestamp` phase (`local_to_s3.py:645-730`), coarsely: per
uploaded file one metadata-replacing self-copy on its destination; every
failure inside the phase is caught and logged, so the phase never aborts
the run and a file whose URI does not parse simply contributes nothing. -/
def setTsEvents : List (String × String) → List Event
  | [] => []
  | (_, sp) :: rest =>
    match parse_s3_path sp with
    | .error _ => setTsEvents rest
    | .ok (b, k) => Event.setTsMeta b k :: setTsEvents rest

/-- A whole upload-mode run: WIP-creation events, per-pair results,
post-loop events (WIP removal, then timestamping), and the exit code
(`some 1` = `sys.exit(1)`, `none` = normal exit 0). -/
structure RunResult where
  preEvents : List Event
  results : List (Outcome × List Event)
  postEvents : List Event
  exitCode : Option Nat
  deriving DecidableEq, Repr

/-- Model of `local_to_s3.main` in upload mode (`local_to_s3.py:354-734`):
validate the argument list (missing or odd-count file arguments exit 1
before anything else), create WIP markers under `--create-wip`
(`local_to_s3.py:372-412`), run the pair loop, then remove WIP markers for
uploaded files under `--remove-wip` and set timestamps under
`--set-timestamp`.  Any uncaught exception inside the `try` is
`sys.exit(1)` (`local_to_s3.py:731-734`). -/
def localToS3Main (args : Args) (fs : List (String × LocalFile)) (view : S3View)
    (uploadOk : String → String → Bool) (now : ℚ) : RunResult :=
  if args.files.isEmpty then ⟨[], [], [], some 1⟩
  else if args.files.length % 2 ≠ 0 then ⟨[], [], [], some 1⟩
  else
    match (if args.createWip then createWips (chunk2 args.files) else ([], false)) with
    | (pre, true) => ⟨pre, [], [], some 1⟩
    | (pre, false) =>
      match processPairs args view uploadOk now ⟨fs, [], [], []⟩ none
          (chunk2 args.files) with
      | ⟨rs, _, some c⟩ => ⟨pre, rs, [], some c⟩
      | ⟨rs, stF, none⟩ =>
        match (if args.removeWip then removeWips stF.uploaded else ([], false)) with
        | (wipEvs, true) => ⟨pre, rs, wipEvs, some 1⟩
        | (wipEvs, false) =>
          ⟨pre, rs,
            wipEvs ++ (if args.setTimestamp then setTsEvents stF.uploaded else []),
            none⟩

/-! ## WIP-marker locality (claim C10) -/

/-- Store events that create or delete a WIP marker. -/
def isWipEvent : Event → Bool
  | .putWip _ _ => true
  | .deleteWip _ _ => true
  | _ => false

/-! ## Theorems -/

/-- C1: `upload_with_retries` returns `true` only if, on the attempt that
succeeded, the digest of the temp object and the digest of the final
destination object re-computed by streaming it back after the promoting
copy both equal the local digest computed at the start of the call; an
upload that could not be verified is never reported successful. -/
theorem claimC1 (localMd5 : String) (attempts : List AttemptObs)
    (h : upload_with_retries localMd5 attempts = true) :
    ∃ a ∈ attempts, a.tmpMd5 = some localMd5 ∧ a.finalMd5 = some localMd5 := by
  induction attempts with
  | nil => simp [upload_with_retries] at h
  | cons a rest ih =>
    rw [upload_with_retries] at h
    split at h
    · exact (ih h).imp fun x hx => ⟨List.mem_cons_of_mem _ hx.1, hx.2⟩
    · rename_i d htmp
      split at h
      · rename_i hd
        split at h
        · exact (ih h).imp fun x hx => ⟨List.mem_cons_of_mem _ hx.1, hx.2⟩
        · rename_i d2 hfin
          split at h
          · rename_i hd2
            exact ⟨a, List.mem_cons_self a rest, by rw [htmp, hd], by rw [hfin, hd2]⟩
          · exact (ih h).imp fun x hx => ⟨List.mem_cons_of_mem _ hx.1, hx.2⟩
      · exact (ih h).imp fun x hx => ⟨List.mem_cons_of_mem _ hx.1, hx.2⟩

/-- Witness for C1 at a concrete successful trace. -/
theorem claimC1_witness :
    upload_with_retries "a" [⟨some "a", some "a"⟩] = true ∧
      ∃ a ∈ [AttemptObs.mk (some "a") (some "a")],
        a.tmpMd5 = some "a" ∧ a.finalMd5 = some "a" :=
  ⟨by decide, claimC1 "a" [⟨some "a", some "a"⟩] (by decide)⟩

/-- C2: evaluation of `upload_with_retries` at the failing input.  On a
trace whose first attempt has a matching temp digest but a mismatching
post-copy digest, the source catches its own `ValueError` (the `raise` at
`common.py:432` sits inside the `try` whose `except Exception` at
`common.py:442` swallows it), sleeps, and retries: a second attempt runs
and can even return `true`; with a single attempt the function returns
`false` and the caller continues.  The claim (and `spec.md` section 4.2
step d) requires the mismatch to raise a hard, non-retried integrity error
that aborts the whole run. -/
theorem claimC2 :
    upload_with_retries "a" [⟨some "a", some "b"⟩, ⟨some "a", some "a"⟩] = true ∧
      upload_with_retries "a" [⟨some "a", some "b"⟩] = false := by
  decide

theorem append_backup_ne (k : String) : k ++ ".backup" ≠ k := by
  intro h
  have hl := congrArg String.length h
  rw [String.length_append] at hl
  have h7 : ".backup".length = 7 := rfl
  rw [h7] at hl
  omega

theorem storeGet_put_same (s : Store) (bk : String × String) (o : S3Obj) :
    storeGet (storePut s bk o) bk = some o := by
  unfold storeGet storePut
  rw [List.find?_cons_of_pos _ (by simp)]
  rfl

theorem storeGet_put_ne (s : Store) (bk bk2 : String × String) (o : S3Obj)
    (h : bk2 ≠ bk) : storeGet (storePut s bk o) bk2 = storeGet s bk2 := by
  unfold storeGet storePut
  rw [List.find?_cons_of_neg _ ?_]
  simp only [decide_eq_true_eq]
  exact fun he => h he.symm

theorem storeGet_del_same (s : Store) (bk : String × String) :
    storeGet (storeDel s bk) bk = none := by
  simp [storeGet, storeDel, List.find?_filter, List.find?_eq_none]

theorem storeGet_del_ne (s : Store) (bk bk2 : String × String) (h : bk2 ≠ bk) :
    storeGet (storeDel s bk) bk2 = storeGet s bk2 := by
  induction s with
  | nil => rfl
  | cons e rest ih =>
    unfold storeDel storeGet at *
    rw [List.filter_cons]
    by_cases h1 : e.1 = bk
    · rw [if_neg (by simp [h1])]
      rw [List.find?_cons_of_neg _ ?_]
      · exact ih
      · simp only [decide_eq_true_eq]
        rw [h1]
        exact fun hc => h hc.symm
    · rw [if_pos (by simp [h1])]
      by_cases h2 : e.1 = bk2
      · rw [List.find?_cons_of_pos _ (by simp [h2]),
          List.find?_cons_of_pos _ (by simp [h2])]
      · rw [List.find?_cons_of_neg _ (by simp [h2]),
          List.find?_cons_of_neg _ (by simp [h2])]
        exact ih

theorem metaGet_set_same (m : List (String × String)) (k v : String) :
    metaGet (metaSet m k v) k = some v := by
  unfold metaGet metaSet
  rw [List.find?_cons_of_pos _ (by simp)]
  rfl

/-- C6 counterexample: the backup delete at the end of
`update_metadata_if_needed` is wrapped in a `try/except Exception` that
only logs a failure (`s3_set_timestamp.py:555-562`), so when the
`delete_object` call fails the method still completes without raising —
a successful call after which `<key>.backup` remains in the store,
refuting the claim that no backup object remains after success. -/
theorem claimC6_counterexample :
    update_metadata_if_needed (fun _ => "") [(("b", "k"), S3Obj.mk [1] [] "ct")]
        "b" "k" "m" "T" false [1] [1] false
      = .ok [(("b", "k"), S3Obj.mk [1] [("m", "T")] "ct"),
             (("b", "k.backup"), S3Obj.mk [1] [] "ct"),
             (("b", "k"), S3Obj.mk [1] [] "ct")] ∧
      storeGet [(("b", "k"), S3Obj.mk [1] [("m", "T")] "ct"),
                (("b", "k.backup"), S3Obj.mk [1] [] "ct"),
                (("b", "k"), S3Obj.mk [1] [] "ct")] ("b", "k" ++ ".backup")
        = some (S3Obj.mk [1] [] "ct") :=
  ⟨rfl, rfl⟩

/-- C6 as amended: after a successful `update_metadata_if_needed` call
(no error raised, in-place destination) the target object's ETag is
unchanged from before the call and its custom metadata map contains
`metadata_key` set to the extracted timestamp; the `<key>.backup` object
is removed when the best-effort delete succeeds, but when the delete
fails (only logged in the source) the call still succeeds and the backup
copy remains in the store. -/
theorem claimC6_amended (etag : Body → String) (store storeOut : Store)
    (bucket key metadata_key ts : String) (force : Bool) (b1 b2 : Body)
    (delOk : Bool) (obj : S3Obj)
    (hobj : storeGet store (bucket, key) = some obj)
    (hok : update_metadata_if_needed etag store bucket key metadata_key ts force
      b1 b2 delOk = .ok storeOut) :
    ∃ objOut, storeGet storeOut (bucket, key) = some objOut ∧
      etag objOut.body = etag obj.body ∧
      metaGet objOut.meta metadata_key = some ts ∧
      (delOk = true → storeGet storeOut (bucket, key ++ ".backup") = none) ∧
      (delOk = false → storeGet storeOut (bucket, key ++ ".backup")
        = some ⟨b1, obj.meta, obj.contentType⟩) := by
  have hne : (bucket, key) ≠ (bucket, key ++ ".backup") := by
    intro h
    exact append_backup_ne key (congrArg Prod.snd h).symm
  have hne2 : (bucket, key ++ ".backup") ≠ (bucket, key) := fun h => hne h.symm
  unfold update_metadata_if_needed at hok
  rw [hobj] at hok
  dsimp only at hok
  split at hok
  · exact absurd hok (by simp)
  · rw [storeGet_put_ne _ _ _ _ hne, hobj, storeGet_put_same] at hok
    dsimp only at hok
    split at hok
    · exact absurd hok (by simp)
    · rename_i hetag1
      rw [storeGet_put_same] at hok
      dsimp only at hok
      split at hok
      · rename_i hetag2
        injection hok with hout
        subst hout
        refine ⟨⟨b2, metaSet obj.meta metadata_key ts, obj.contentType⟩,
          ?_, ?_, ?_, ?_, ?_⟩
        · cases delOk
          · rw [if_neg Bool.false_ne_true, storeGet_put_same]
          · rw [if_pos rfl, storeGet_del_ne _ _ _ hne, storeGet_put_same]
        · have h2 : etag obj.body = etag b1 := by
            by_contra hc
            exact hetag1 (by simpa using hc)
          rw [hetag2, h2]
        · exact metaGet_set_same _ _ _
        · intro hd
          rw [hd, if_pos rfl]
          exact storeGet_del_same _ _
        · intro hd
          rw [hd, if_neg Bool.false_ne_true]
          rw [storeGet_put_ne _ _ _ _ hne2, storeGet_put_same]
      · exact absurd hok (by simp)

/-- Witness for C6's amended statement at a concrete store and
well-behaved copies, exercising both delete outcomes. -/
theorem claimC6_amended_witness :
    (update_metadata_if_needed (fun _ => "") [(("b", "k"), S3Obj.mk [1] [] "ct")]
          "b" "k" "m" "T" false [1] [1] true
        = .ok [(("b", "k"), S3Obj.mk [1] [("m", "T")] "ct"),
               (("b", "k"), S3Obj.mk [1] [] "ct")] ∧
      ∃ objOut,
        storeGet [(("b", "k"), S3Obj.mk [1] [("m", "T")] "ct"),
                  (("b", "k"), S3Obj.mk [1] [] "ct")] ("b", "k") = some objOut ∧
          (fun (_ : Body) => "") objOut.body = (fun (_ : Body) => "") [1] ∧
          metaGet objOut.meta "m" = some "T" ∧
          (true = true →
            storeGet [(("b", "k"), S3Obj.mk [1] [("m", "T")] "ct"),
                      (("b", "k"), S3Obj.mk [1] [] "ct")] ("b", "k" ++ ".backup")
              = none) ∧
          (true = false →
            storeGet [(("b", "k"), S3Obj.mk [1] [("m", "T")] "ct"),
                      (("b", "k"), S3Obj.mk [1] [] "ct")] ("b", "k" ++ ".backup")
              = some ⟨[1], [], "ct"⟩)) ∧
      ∃ objOut,
        storeGet [(("b", "k"), S3Obj.mk [1] [("m", "T")] "ct"),
                  (("b", "k.backup"), S3Obj.mk [1] [] "ct"),
                  (("b", "k"), S3Obj.mk [1] [] "ct")] ("b", "k") = some objOut ∧
          (fun (_ : Body) => "") objOut.body = (fun (_ : Body) => "") [1] ∧
          metaGet objOut.meta "m" = some "T" ∧
          (false = true →
            storeGet [(("b", "k"), S3Obj.mk [1] [("m", "T")] "ct"),
                      (("b", "k.backup"), S3Obj.mk [1] [] "ct"),
                      (("b", "k"), S3Obj.mk [1] [] "ct")] ("b", "k" ++ ".backup")
              = none) ∧
          (false = false →
            storeGet [(("b", "k"), S3Obj.mk [1] [("m", "T")] "ct"),
                      (("b", "k.backup"), S3Obj.mk [1] [] "ct"),
                      (("b", "k"), S3Obj.mk [1] [] "ct")] ("b", "k" ++ ".backup")
              = some ⟨[1], [], "ct"⟩) :=
  ⟨⟨rfl,
    claimC6_amended (fun _ => "") [(("b", "k"), S3Obj.mk [1] [] "ct")]
      [(("b", "k"), S3Obj.mk [1] [("m", "T")] "ct"),
       (("b", "k"), S3Obj.mk [1] [] "ct")]
      "b" "k" "m" "T" false [1] [1] true (S3Obj.mk [1] [] "ct") rfl rfl⟩,
    claimC6_amended (fun _ => "") [(("b", "k"), S3Obj.mk [1] [] "ct")]
      [(("b", "k"), S3Obj.mk [1] [("m", "T")] "ct"),
       (("b", "k.backup"), S3Obj.mk [1] [] "ct"),
       (("b", "k"), S3Obj.mk [1] [] "ct")]
      "b" "k" "m" "T" false [1] [1] false (S3Obj.mk [1] [] "ct") rfl rfl⟩

/-- C8 counterexample: with field key `"ts"` (whose table format is the
ISO pattern) and a record whose `ts` value is in the `cdt` pattern, the
source still accepts the value, parsing it with the `cdt` format — even
though the one format associated with `"ts"` rejects it.  This refutes the
claim that the value is parsed using the one format associated with the
field key. -/
theorem claimC8_counterexample :
    get_last_timestamp "ts" false [some [("ts", "2024-01-02 03:04:05")]]
        ⟨1970, 1, 1, 0, 0, 0⟩ = .ok "2024-01-02T03:04:05Z" ∧
      strptime TsFmt.iso "2024-01-02 03:04:05" = none :=
  ⟨rfl, rfl⟩

/-- C8 as amended: calling `get_last_timestamp` with a field key absent
from the fixed table is an error; for a line whose record yields a truthy
timestamp value, the value is parsed by trying every format of the table in
order and accepting the first success (the field-to-format association is
not consulted for parsing), and a value no format accepts causes the record
to be skipped (here: falling back to the file modification time). -/
theorem claimC8_amended (ts_key : String) (all_lines : Bool)
    (lines : List (Option JsonRecord)) (mtime : Dt) (r : JsonRecord) (s : String) :
    (known_formats.find? (fun e => e.1 = ts_key) = none →
      get_last_timestamp ts_key all_lines lines mtime =
        .error ("Error processing timestamps: Unknown timestamp format for key: "
          ++ ts_key)) ∧
    (∀ hit, known_formats.find? (fun e => e.1 = ts_key) = some hit →
      tsLookup r ts_key = some s →
      ∀ dt, tryKnownFormats known_formats s = some dt →
        get_last_timestamp ts_key false [some r] mtime = .ok (formatDt dt)) ∧
    (∀ hit, known_formats.find? (fun e => e.1 = ts_key) = some hit →
      tsLookup r ts_key = some s →
      tryKnownFormats known_formats s = none →
        get_last_timestamp ts_key false [some r] mtime = .ok (formatDt mtime)) := by
  refine ⟨?_, ?_, ?_⟩
  · intro hnone
    unfold get_last_timestamp
    rw [hnone]
  · intro hit hhit hval dt hparse
    unfold get_last_timestamp
    rw [hhit]
    unfold scanLines
    dsimp only
    rw [hval]
    dsimp only
    rw [hparse]
    rfl
  · intro hit hhit hval hparse
    unfold get_last_timestamp
    rw [hhit]
    unfold scanLines
    dsimp only
    rw [hval]
    dsimp only
    rw [hparse]
    rfl

/-- Witness for C8's amended statement at concrete inputs: an unknown key
errors; a `cdt`-shaped value under key `"ts"` is accepted via the table
scan; an unparseable value falls back to the file mtime. -/
theorem claimC8_witness :
    get_last_timestamp "nope" false [] ⟨1970, 1, 1, 0, 0, 0⟩ =
        .error ("Error processing timestamps: Unknown timestamp format for key: nope") ∧
      get_last_timestamp "ts" false [some [("ts", "2024-01-02 03:04:05")]]
        ⟨1970, 1, 1, 0, 0, 0⟩ = .ok (formatDt ⟨2024, 1, 2, 3, 4, 5⟩) ∧
      get_last_timestamp "ts" false [some [("ts", "garbage")]]
        ⟨1970, 1, 1, 0, 0, 0⟩ = .ok (formatDt ⟨1970, 1, 1, 0, 0, 0⟩) :=
  ⟨(claimC8_amended "nope" false [] ⟨1970, 1, 1, 0, 0, 0⟩ [] "").1 rfl,
    (claimC8_amended "ts" false [] ⟨1970, 1, 1, 0, 0, 0⟩
      [("ts", "2024-01-02 03:04:05")] "2024-01-02 03:04:05").2.1
      ("ts", TsFmt.iso) rfl rfl ⟨2024, 1, 2, 3, 4, 5⟩ rfl,
    (claimC8_amended "ts" false [] ⟨1970, 1, 1, 0, 0, 0⟩
      [("ts", "garbage")] "garbage").2.2 ("ts", TsFmt.iso) rfl rfl rfl⟩

theorem createWipPhase_staleWipDeleted (c : Bool) (files : List String) (d : Bool) :
    (createWipPhase c files d).staleWipDeleted = d := by
  unfold createWipPhase
  split
  · rcases hp : chunk2E files with _ | pairs
    · rfl
    · dsimp only
      rcases hc : createWips pairs with ⟨evs, err⟩
      cases err <;> rfl
  · rfl

theorem createWipPhase_exitCode_d (c : Bool) (files : List String) (d1 d2 : Bool) :
    (createWipPhase c files d1).exitCode = (createWipPhase c files d2).exitCode := by
  unfold createWipPhase
  split
  · rcases hp : chunk2E files with _ | pairs
    · rfl
    · dsimp only
      rcases hc : createWips pairs with ⟨evs, err⟩
      cases err <;> rfl
  · rfl

theorem createWipPhase_wipEvents_d (c : Bool) (files : List String) (d1 d2 : Bool) :
    (createWipPhase c files d1).wipEvents = (createWipPhase c files d2).wipEvents := by
  unfold createWipPhase
  split
  · rcases hp : chunk2E files with _ | pairs
    · rfl
    · dsimp only
      rcases hc : createWips pairs with ⟨evs, err⟩
      cases err <;> rfl
  · rfl

/-- C4: exit codes of the `--s3-file-exists` entry point (WIP checking
enabled): `0` when the destination exists, and on the WIP-creation path
(`--create-wip` with file arguments given, markers freshly PUT); `1` when
the destination is absent and no WIP is in play (no live marker, and no
WIP-creation path taken); `2` when a live (non-stale) WIP marker exists.
The hypotheses ask that the URI arguments are well-formed. -/
theorem claimC4 (destPath : String) (destExists : Bool)
    (createWipFlag : Bool) (wipAge : Option ℚ) (wipMaxAge : ℚ)
    (files : List String) (bk bkw : String × String) (pairs : List (String × String))
    (evs : List Event)
    (hdest : parse_s3_path destPath = .ok bk)
    (hwip : parse_s3_path (destPath ++ ".wip") = .ok bkw)
    (hpairs : chunk2E files = some pairs)
    (hcw : createWips pairs = (evs, false)) :
    (destExists = true →
      s3FileExistsCheck destPath destExists true createWipFlag wipAge wipMaxAge files
        = ⟨0, false, []⟩) ∧
    (∀ age, destExists = false → wipAge = some age → age ≤ wipMaxAge →
      (s3FileExistsCheck destPath destExists true createWipFlag wipAge wipMaxAge
        files).exitCode = 2) ∧
    (destExists = false → (∀ age, wipAge = some age → wipMaxAge < age) →
      createWipFlag = true → files ≠ [] →
      (s3FileExistsCheck destPath destExists true createWipFlag wipAge wipMaxAge
        files).exitCode = 0 ∧
      (s3FileExistsCheck destPath destExists true createWipFlag wipAge wipMaxAge
        files).wipEvents = evs) ∧
    (destExists = false → (∀ age, wipAge = some age → wipMaxAge < age) →
      ¬(createWipFlag = true ∧ files ≠ []) →
      (s3FileExistsCheck destPath destExists true createWipFlag wipAge wipMaxAge
        files).exitCode = 1) := by
  refine ⟨?_, ?_, ?_, ?_⟩
  · intro hd
    subst hd
    simp [s3FileExistsCheck, hdest]
  · intro age hd hage hle
    subst hd
    subst hage
    simp [s3FileExistsCheck, hdest, wipCheckStep, hwip, not_lt.mpr hle]
  · intro hd hstale hc hf
    subst hd
    subst hc
    cases hage : wipAge with
    | none =>
      simp [s3FileExistsCheck, hdest, wipCheckStep, hwip, createWipPhase, hf,
        hpairs, hcw]
    | some age =>
      simp [s3FileExistsCheck, hdest, wipCheckStep, hwip, createWipPhase, hf,
        hpairs, hcw, hstale age hage]
  · intro hd hstale hnc
    subst hd
    have hphase : ∀ d, (createWipPhase createWipFlag files d).exitCode = 1 := by
      intro d
      unfold createWipPhase
      rw [if_neg ?_]
      simp only [Bool.and_eq_true, Bool.not_eq_true']
      intro hcontra
      exact hnc ⟨hcontra.1, by simpa using hcontra.2⟩
    cases hage : wipAge with
    | none =>
      simp [s3FileExistsCheck, hdest, wipCheckStep, hwip, hphase]
    | some age =>
      simp [s3FileExistsCheck, hdest, wipCheckStep, hwip, hphase, hstale age hage]

/-- Witness for C4 at concrete inputs: destination present; live marker;
fresh-WIP-creation path; plain absence. -/
theorem claimC4_witness :
    (s3FileExistsCheck "s3://b/k" true true false none 24 [] = ⟨0, false, []⟩) ∧
      (s3FileExistsCheck "s3://b/k" false true false (some 1) 24 []).exitCode = 2 ∧
      ((s3FileExistsCheck "s3://b/k" false true true none 24
          ["x.jsonl.bz2", "s3://b/x.jsonl.bz2"]).exitCode = 0 ∧
        (s3FileExistsCheck "s3://b/k" false true true none 24
          ["x.jsonl.bz2", "s3://b/x.jsonl.bz2"]).wipEvents
          = [Event.putWip "b" "x.jsonl.bz2.wip"]) ∧
      (s3FileExistsCheck "s3://b/k" false true false none 24 []).exitCode = 1 := by
  have h1 := claimC4 "s3://b/k" true false none 24 [] ("b", "k") ("b", "k.wip")
    [] [] rfl rfl rfl rfl
  have h2 := claimC4 "s3://b/k" false false (some 1) 24 [] ("b", "k") ("b", "k.wip")
    [] [] rfl rfl rfl rfl
  have h3 := claimC4 "s3://b/k" false true none 24
    ["x.jsonl.bz2", "s3://b/x.jsonl.bz2"] ("b", "k") ("b", "k.wip")
    [("x.jsonl.bz2", "s3://b/x.jsonl.bz2")] [Event.putWip "b" "x.jsonl.bz2.wip"]
    rfl rfl rfl rfl
  have h4 := claimC4 "s3://b/k" false false none 24 [] ("b", "k") ("b", "k.wip")
    [] [] rfl rfl rfl rfl
  refine ⟨h1.1 rfl, h2.2.1 1 rfl rfl (by norm_num), h3.2.2.1 rfl ?_ rfl (by decide),
    h4.2.2.2 rfl ?_ ?_⟩
  · intro age hage
    exact absurd hage (by simp)
  · intro age hage
    exact absurd hage (by simp)
  · intro hcontra
    exact hcontra.2 rfl

/-- C5: the WIP-marker age policy with configured max age `M`: a marker of
age at most `M` hours reports held-by-other (exit 2) and is not deleted; a
marker strictly older than `M` hours is deleted and the call proceeds on
the acquired path, behaving exactly like a run that found no marker (apart
from recording the deletion). -/
theorem claimC5 (destPath : String) (createWipFlag : Bool)
    (age wipMaxAge : ℚ) (files : List String) (bk bkw : String × String)
    (hdest : parse_s3_path destPath = .ok bk)
    (hwip : parse_s3_path (destPath ++ ".wip") = .ok bkw) :
    (age ≤ wipMaxAge →
      s3FileExistsCheck destPath false true createWipFlag (some age) wipMaxAge files
        = ⟨2, false, []⟩) ∧
    (wipMaxAge < age →
      (s3FileExistsCheck destPath false true createWipFlag (some age) wipMaxAge
          files).staleWipDeleted = true ∧
      (s3FileExistsCheck destPath false true createWipFlag (some age) wipMaxAge
          files).exitCode =
        (s3FileExistsCheck destPath false true createWipFlag none wipMaxAge
          files).exitCode ∧
      (s3FileExistsCheck destPath false true createWipFlag (some age) wipMaxAge
          files).wipEvents =
        (s3FileExistsCheck destPath false true createWipFlag none wipMaxAge
          files).wipEvents) := by
  constructor
  · intro hle
    simp [s3FileExistsCheck, hdest, wipCheckStep, hwip, not_lt.mpr hle]
  · intro hgt
    have hstep : wipCheckStep destPath (some age) wipMaxAge = .acquiredReclaimed := by
      simp [wipCheckStep, hwip, hgt]
    have hstepn : wipCheckStep destPath none wipMaxAge = .acquiredClean := by
      simp [wipCheckStep, hwip]
    have hsome : s3FileExistsCheck destPath false true createWipFlag (some age)
        wipMaxAge files = createWipPhase createWipFlag files true := by
      simp [s3FileExistsCheck, hdest, hstep]
    have hnone : s3FileExistsCheck destPath false true createWipFlag none
        wipMaxAge files = createWipPhase createWipFlag files false := by
      simp [s3FileExistsCheck, hdest, hstepn]
    rw [hsome, hnone]
    exact ⟨createWipPhase_staleWipDeleted _ _ _,
      createWipPhase_exitCode_d _ _ _ _, createWipPhase_wipEvents_d _ _ _ _⟩

/-- Witness for C5 at concrete ages around a 24-hour maximum. -/
theorem claimC5_witness :
    (s3FileExistsCheck "s3://b/k" false true false (some 24) 24 []
        = ⟨2, false, []⟩) ∧
      (s3FileExistsCheck "s3://b/k" false true false (some 30) 24
          []).staleWipDeleted = true := by
  have h := claimC5 "s3://b/k" false 24 24 [] ("b", "k") ("b", "k.wip") rfl rfl
  have h2 := claimC5 "s3://b/k" false 30 24 [] ("b", "k") ("b", "k.wip") rfl rfl
  exact ⟨h.1 (by norm_num), (h2.2 (by norm_num)).1⟩

/-- C9: in the pair loop, when a pair is a content file (the next pair's
local name extends it and ends in `.log.gz`) and it resolves to a skip or
its upload fails, the dependent log pair is never attempted — it is
consumed with outcome `skippedDependent` and an empty event list — and
processing resumes after it. -/
theorem claimC9 (args : Args) (view : S3View) (uploadOk : String → String → Bool)
    (now : ℚ) (st : LoopState) (prev : Option (String × String))
    (p q : String × String) (rest : List (String × String))
    (hq : isContentOf p.1 q.1 = true) :
    (∀ oc, resolvePair args view uploadOk now st prev p = .skip oc →
      (processPairs args view uploadOk now st prev (p :: q :: rest)).results =
        (oc, []) :: (Outcome.skippedDependent, []) ::
          (processPairs args view uploadOk now st (some q) rest).results) ∧
    (∀ evs, resolvePair args view uploadOk now st prev p = .failed evs →
      (processPairs args view uploadOk now st prev (p :: q :: rest)).results =
        (Outcome.failedUpload, evs) :: (Outcome.skippedDependent, []) ::
          (processPairs args view uploadOk now st (some q) rest).results) := by
  constructor
  · intro oc hres
    rcases hrec : processPairs args view uploadOk now st (some q) rest with ⟨rs, st2, ex⟩
    unfold processPairs
    dsimp only
    rw [hres]
    dsimp only
    rw [if_pos hq, hrec]
  · intro evs hres
    rcases hrec : processPairs args view uploadOk now st (some q) rest with ⟨rs, st2, ex⟩
    unfold processPairs
    dsimp only
    rw [hres]
    dsimp only
    rw [if_pos hq, hrec]

/-- Witness for C9: a content pair whose destination already exists (no
`--force-overwrite`, no `--upload-if-newer`) is skipped and its log pair
is consumed as `skippedDependent` with no events. -/
theorem claimC9_witness :
    isContentOf "c.jsonl.bz2" "c.jsonl.bz2.log.gz" = true ∧
      resolvePair ⟨[], false, false, false, false, false, false, [".stamp"]⟩
        ⟨fun _ _ => true, fun _ _ => none⟩ (fun _ _ => true) 0
        ⟨[("c.jsonl.bz2", ⟨5, 0⟩), ("c.jsonl.bz2.log.gz", ⟨3, 0⟩)], [], [], []⟩ none
        ("c.jsonl.bz2", "s3://b/c.jsonl.bz2") = .skip .skippedExists ∧
      (processPairs ⟨[], false, false, false, false, false, false, [".stamp"]⟩
        ⟨fun _ _ => true, fun _ _ => none⟩ (fun _ _ => true) 0
        ⟨[("c.jsonl.bz2", ⟨5, 0⟩), ("c.jsonl.bz2.log.gz", ⟨3, 0⟩)], [], [], []⟩ none
        [("c.jsonl.bz2", "s3://b/c.jsonl.bz2"),
         ("c.jsonl.bz2.log.gz", "s3://b/c.jsonl.bz2.log.gz")]).results =
      (Outcome.skippedExists, []) :: (Outcome.skippedDependent, []) ::
        (processPairs ⟨[], false, false, false, false, false, false, [".stamp"]⟩
          ⟨fun _ _ => true, fun _ _ => none⟩ (fun _ _ => true) 0
          ⟨[("c.jsonl.bz2", ⟨5, 0⟩), ("c.jsonl.bz2.log.gz", ⟨3, 0⟩)], [], [], []⟩
          (some ("c.jsonl.bz2.log.gz", "s3://b/c.jsonl.bz2.log.gz")) []).results :=
  ⟨rfl, rfl,
    (claimC9 ⟨[], false, false, false, false, false, false, [".stamp"]⟩
      ⟨fun _ _ => true, fun _ _ => none⟩ (fun _ _ => true) 0
      ⟨[("c.jsonl.bz2", ⟨5, 0⟩), ("c.jsonl.bz2.log.gz", ⟨3, 0⟩)], [], [], []⟩ none
      ("c.jsonl.bz2", "s3://b/c.jsonl.bz2")
      ("c.jsonl.bz2.log.gz", "s3://b/c.jsonl.bz2.log.gz") [] rfl).1
      Outcome.skippedExists rfl⟩

/-- C3 counterexample: under `--upload-if-newer` WITH `--force-overwrite`,
a 14-byte local file named `x.jsonl.bz2` (ending in `.bz2`) is uploaded:
the stamp-file classification sits inside the `elif not
args.force_overwrite` branch (`local_to_s3.py:486-497`), so `force`
bypasses it entirely, contradicting the claim that such a file is never
uploaded regardless of the force-overwrite flag. -/
theorem claimC3_counterexample :
    localToS3Main
      ⟨["x.jsonl.bz2", "s3://b/x.jsonl.bz2"], true, true, false, false, false,
        false, [".stamp", ".last_synced"]⟩
      [("x.jsonl.bz2", ⟨14, 0⟩)] ⟨fun _ _ => true, fun _ _ => none⟩
      (fun _ _ => true) 0 =
    ⟨[], [(Outcome.uploaded, [Event.uploadAttempt "x.jsonl.bz2" "b" "x.jsonl.bz2"])],
      [], none⟩ := rfl

/-- C3 as amended: under `--upload-if-newer` with `--force-overwrite`
unset, a 14-byte local file ending in `.bz2` (as a standalone pair) is
classified as a stamp file and skipped, whether or not the destination
exists; a 0-byte local file is also never uploaded, but via the
unconditional fatal zero-size check (`local_to_s3.py:465-472`), which
exits 1 before any stamp classification and regardless of either flag;
and (per the counterexample) `--force-overwrite` bypasses stamp
classification entirely. -/
theorem claimC3_amended (args : Args) (fs : List (String × LocalFile))
    (view : S3View) (uploadOk : String → String → Bool) (now : ℚ)
    (l s b k : String) (f : LocalFile)
    (hfiles : args.files = [l, s])
    (hnew : args.uploadIfNewer = true)
    (hcw : args.createWip = false)
    (hforb : args.forbidExtensions.any (fun e => strEndsWith l e) = false)
    (hfs : fsGet fs l = some f)
    (hparse : parse_s3_path s = .ok (b, k))
    (hbz : strEndsWith l ".bz2" = true) :
    (args.forceOverwrite = false → f.size = 14 →
      (localToS3Main args fs view uploadOk now).results
          = [(Outcome.skippedStamp, [])] ∧
        (localToS3Main args fs view uploadOk now).exitCode = none) ∧
    (f.size = 0 → localToS3Main args fs view uploadOk now = ⟨[], [], [], some 1⟩) := by
  constructor
  · intro hforce hsize
    have hres : resolvePair args view uploadOk now ⟨fs, [], [], []⟩ none (l, s)
        = .skip .skippedStamp := by
      cases hex : view.s3Exists b k <;>
        simp [resolvePair, skipDecision, isForcedLog, isStampFile, hforb, hfs,
          hparse, hnew, hbz, hforce, hsize, hex]
    have hproc : processPairs args view uploadOk now ⟨fs, [], [], []⟩ none [(l, s)]
        = ⟨[(Outcome.skippedStamp, [])], ⟨fs, [], [], []⟩, none⟩ := by
      unfold processPairs
      dsimp only
      rw [hres]
    have hmain : localToS3Main args fs view uploadOk now
        = ⟨[], [(Outcome.skippedStamp, [])], [], none⟩ := by
      cases hrw : args.removeWip <;> cases hst : args.setTimestamp <;>
        simp [localToS3Main, hfiles, hcw, chunk2, hproc, hrw, hst, removeWips,
          setTsEvents]
    rw [hmain]
    exact ⟨rfl, rfl⟩
  · intro hsize
    have hres : resolvePair args view uploadOk now ⟨fs, [], [], []⟩ none (l, s)
        = .fatal := by
      simp [resolvePair, hforb, hfs, hsize]
    have hproc : processPairs args view uploadOk now ⟨fs, [], [], []⟩ none [(l, s)]
        = ⟨[], ⟨fs, [], [], []⟩, some 1⟩ := by
      unfold processPairs
      dsimp only
      rw [hres]
    simp [localToS3Main, hfiles, hcw, chunk2, hproc]

/-- Witness for C3's amended statement at concrete runs: the 14-byte
`.bz2` stamp skip, and the 0-byte fatal exit. -/
theorem claimC3_amended_witness :
    ((localToS3Main
        ⟨["x.jsonl.bz2", "s3://b/x.jsonl.bz2"], false, true, false, false, false,
          false, [".stamp", ".last_synced"]⟩
        [("x.jsonl.bz2", ⟨14, 0⟩)] ⟨fun _ _ => true, fun _ _ => none⟩
        (fun _ _ => true) 0).results = [(Outcome.skippedStamp, [])] ∧
      (localToS3Main
        ⟨["x.jsonl.bz2", "s3://b/x.jsonl.bz2"], false, true, false, false, false,
          false, [".stamp", ".last_synced"]⟩
        [("x.jsonl.bz2", ⟨14, 0⟩)] ⟨fun _ _ => true, fun _ _ => none⟩
        (fun _ _ => true) 0).exitCode = none) ∧
      localToS3Main
        ⟨["x.jsonl.bz2", "s3://b/x.jsonl.bz2"], false, true, false, false, false,
          false, [".stamp", ".last_synced"]⟩
        [("x.jsonl.bz2", ⟨0, 0⟩)] ⟨fun _ _ => true, fun _ _ => none⟩
        (fun _ _ => true) 0 = ⟨[], [], [], some 1⟩ :=
  ⟨(claimC3_amended
      ⟨["x.jsonl.bz2", "s3://b/x.jsonl.bz2"], false, true, false, false, false,
        false, [".stamp", ".last_synced"]⟩
      [("x.jsonl.bz2", ⟨14, 0⟩)] ⟨fun _ _ => true, fun _ _ => none⟩
      (fun _ _ => true) 0 "x.jsonl.bz2" "s3://b/x.jsonl.bz2" "b" "x.jsonl.bz2"
      ⟨14, 0⟩ rfl rfl rfl rfl rfl rfl rfl).1 rfl rfl,
    (claimC3_amended
      ⟨["x.jsonl.bz2", "s3://b/x.jsonl.bz2"], false, true, false, false, false,
        false, [".stamp", ".last_synced"]⟩
      [("x.jsonl.bz2", ⟨0, 0⟩)] ⟨fun _ _ => true, fun _ _ => none⟩
      (fun _ _ => true) 0 "x.jsonl.bz2" "s3://b/x.jsonl.bz2" "b" "x.jsonl.bz2"
      ⟨0, 0⟩ rfl rfl rfl rfl rfl rfl rfl).2 rfl⟩

/-- C7 counterexample: with `--create-wip`, the WIP marker PUT
(`local_to_s3.py:372-412`) runs before the per-file precondition checks,
so a run whose only content file is 0 bytes first mutates the store
(PUT of `x.jsonl.bz2.wip`) and only then exits 1 — the exit does not
precede every store mutation as the claim requires. -/
theorem claimC7_counterexample :
    localToS3Main
      ⟨["x.jsonl.bz2", "s3://b/x.jsonl.bz2"], false, false, false, false, true,
        false, [".stamp", ".last_synced"]⟩
      [("x.jsonl.bz2", ⟨0, 0⟩)] ⟨fun _ _ => true, fun _ _ => none⟩
      (fun _ _ => true) 0 =
    ⟨[Event.putWip "b" "x.jsonl.bz2.wip"], [], [], some 1⟩ := rfl

/-- C7 as amended: each configuration/precondition error — odd CLI
argument count, forbidden extension, missing local file, zero-byte local
file, malformed destination URI — exits the process with status 1 at the
point of detection; and when `--create-wip` is not set and the offending
pair is the first one, no store mutation precedes the exit (the run's
event trace is empty).  With `--create-wip`, or with earlier pairs in the
same run, store mutations may already have happened (see the
counterexample). -/
theorem claimC7_amended (args : Args) (fs : List (String × LocalFile))
    (view : S3View) (uploadOk : String → String → Bool) (now : ℚ)
    (l s : String) (restFiles : List String)
    (hfiles : args.files = l :: s :: restFiles)
    (hcw : args.createWip = false) :
    (args.files.length % 2 ≠ 0 →
      localToS3Main args fs view uploadOk now = ⟨[], [], [], some 1⟩) ∧
    (args.forbidExtensions.any (fun e => strEndsWith l e) = true →
      localToS3Main args fs view uploadOk now = ⟨[], [], [], some 1⟩) ∧
    (args.forbidExtensions.any (fun e => strEndsWith l e) = false →
      fsGet fs l = none →
      localToS3Main args fs view uploadOk now = ⟨[], [], [], some 1⟩) ∧
    (∀ f, args.forbidExtensions.any (fun e => strEndsWith l e) = false →
      fsGet fs l = some f → f.size = 0 →
      localToS3Main args fs view uploadOk now = ⟨[], [], [], some 1⟩) ∧
    (∀ f msg, args.forbidExtensions.any (fun e => strEndsWith l e) = false →
      fsGet fs l = some f → f.size ≠ 0 →
      parse_s3_path s = .error msg →
      localToS3Main args fs view uploadOk now = ⟨[], [], [], some 1⟩) := by
  have hne : args.files.isEmpty = false := by rw [hfiles]; rfl
  have hodd1 : args.files.length % 2 ≠ 0 →
      localToS3Main args fs view uploadOk now = ⟨[], [], [], some 1⟩ := by
    intro hodd
    simp [localToS3Main, hne, hodd]
  have hfatal : resolvePair args view uploadOk now ⟨fs, [], [], []⟩ none (l, s)
        = .fatal →
      localToS3Main args fs view uploadOk now = ⟨[], [], [], some 1⟩ := by
    intro hres
    by_cases hodd : args.files.length % 2 = 0
    · have hproc : processPairs args view uploadOk now ⟨fs, [], [], []⟩ none
          ((l, s) :: chunk2 restFiles) = ⟨[], ⟨fs, [], [], []⟩, some 1⟩ := by
        unfold processPairs
        dsimp only
        rw [hres]
      rw [hfiles] at hodd
      simp [localToS3Main, hfiles, hcw, hodd, chunk2, hproc]
    · exact hodd1 hodd
  refine ⟨hodd1, ?_, ?_, ?_, ?_⟩
  · intro hforb
    exact hfatal (by simp [resolvePair, hforb])
  · intro hforb hmiss
    exact hfatal (by simp [resolvePair, hforb, hmiss])
  · intro f hforb hf hsize
    exact hfatal (by simp [resolvePair, hforb, hf, hsize])
  · intro f msg hforb hf hsz hparse
    refine hfatal ?_
    cases hfo : args.forceOverwrite with
    | false =>
      simp [resolvePair, skipDecision, isForcedLog, hforb, hf, hsz, hparse, hfo]
    | true =>
      simp [resolvePair, skipDecision, isForcedLog, uploadStep, hforb, hf, hsz,
        hparse, hfo]

/-- Witness for C7's amended statement at concrete runs: odd argument
count, a forbidden `.stamp` extension, a missing local file, a 0-byte
local file, and a malformed destination URI, each exiting 1 with an empty
event trace. -/
theorem claimC7_witness :
    (localToS3Main
        ⟨["x.jsonl.bz2", "s3://b/x.jsonl.bz2", "y"], false, false, false, false,
          false, false, [".stamp"]⟩
        [("x.jsonl.bz2", ⟨5, 0⟩)] ⟨fun _ _ => true, fun _ _ => none⟩
        (fun _ _ => true) 0 = ⟨[], [], [], some 1⟩) ∧
      (localToS3Main
        ⟨["x.stamp", "s3://b/x.stamp"], false, false, false, false,
          false, false, [".stamp"]⟩
        [("x.stamp", ⟨5, 0⟩)] ⟨fun _ _ => true, fun _ _ => none⟩
        (fun _ _ => true) 0 = ⟨[], [], [], some 1⟩) ∧
      (localToS3Main
        ⟨["x.jsonl.bz2", "s3://b/x.jsonl.bz2"], false, false, false, false,
          false, false, [".stamp"]⟩
        [] ⟨fun _ _ => true, fun _ _ => none⟩
        (fun _ _ => true) 0 = ⟨[], [], [], some 1⟩) ∧
      (localToS3Main
        ⟨["x.jsonl.bz2", "s3://b/x.jsonl.bz2"], false, false, false, false,
          false, false, [".stamp"]⟩
        [("x.jsonl.bz2", ⟨0, 0⟩)] ⟨fun _ _ => true, fun _ _ => none⟩
        (fun _ _ => true) 0 = ⟨[], [], [], some 1⟩) ∧
      (localToS3Main
        ⟨["x.jsonl.bz2", "not-a-uri"], false, false, false, false,
          false, false, [".stamp"]⟩
        [("x.jsonl.bz2", ⟨5, 0⟩)] ⟨fun _ _ => true, fun _ _ => none⟩
        (fun _ _ => true) 0 = ⟨[], [], [], some 1⟩) :=
  ⟨(claimC7_amended
      ⟨["x.jsonl.bz2", "s3://b/x.jsonl.bz2", "y"], false, false, false, false,
        false, false, [".stamp"]⟩
      [("x.jsonl.bz2", ⟨5, 0⟩)] ⟨fun _ _ => true, fun _ _ => none⟩
      (fun _ _ => true) 0 "x.jsonl.bz2" "s3://b/x.jsonl.bz2" ["y"] rfl rfl).1
      (by decide),
    (claimC7_amended
      ⟨["x.stamp", "s3://b/x.stamp"], false, false, false, false,
        false, false, [".stamp"]⟩
      [("x.stamp", ⟨5, 0⟩)] ⟨fun _ _ => true, fun _ _ => none⟩
      (fun _ _ => true) 0 "x.stamp" "s3://b/x.stamp" [] rfl rfl).2.1 rfl,
    (claimC7_amended
      ⟨["x.jsonl.bz2", "s3://b/x.jsonl.bz2"], false, false, false, false,
        false, false, [".stamp"]⟩
      [] ⟨fun _ _ => true, fun _ _ => none⟩
      (fun _ _ => true) 0 "x.jsonl.bz2" "s3://b/x.jsonl.bz2" [] rfl rfl).2.2.1
      rfl rfl,
    (claimC7_amended
      ⟨["x.jsonl.bz2", "s3://b/x.jsonl.bz2"], false, false, false, false,
        false, false, [".stamp"]⟩
      [("x.jsonl.bz2", ⟨0, 0⟩)] ⟨fun _ _ => true, fun _ _ => none⟩
      (fun _ _ => true) 0 "x.jsonl.bz2" "s3://b/x.jsonl.bz2" [] rfl rfl).2.2.2.1
      ⟨0, 0⟩ rfl rfl rfl,
    (claimC7_amended
      ⟨["x.jsonl.bz2", "not-a-uri"], false, false, false, false,
        false, false, [".stamp"]⟩
      [("x.jsonl.bz2", ⟨5, 0⟩)] ⟨fun _ _ => true, fun _ _ => none⟩
      (fun _ _ => true) 0 "x.jsonl.bz2" "not-a-uri" [] rfl rfl).2.2.2.2
      ⟨5, 0⟩ "S3 path must start with s3://" rfl rfl (by decide) rfl⟩

theorem createWips_putWip_mem (ps : List (String × String)) (b k : String)
    (h : Event.putWip b k ∈ (createWips ps).1) :
    ∃ lp sp, (lp, sp) ∈ ps ∧
      (strEndsWith lp ".txt.gz" || strEndsWith lp ".jsonl.bz2") = true ∧
      parse_s3_path (sp ++ ".wip") = .ok (b, k) := by
  induction ps with
  | nil => simp [createWips] at h
  | cons p rest ih =>
    rcases p with ⟨lp, sp⟩
    unfold createWips at h
    split at h
    · rename_i hsuf
      split at h
      · simp at h
      · rename_i b0 k0 hparse
        rcases hcr : createWips rest with ⟨evs, err⟩
        rw [hcr] at h
        dsimp only at h
        rcases List.mem_cons.mp h with h | h
        · injection h with hb hk
          subst hb
          subst hk
          exact ⟨lp, sp, List.mem_cons_self _ _, hsuf, hparse⟩
        · obtain ⟨lp2, sp2, hmem, hsuf2, hp2⟩ := ih (by rw [hcr]; exact h)
          exact ⟨lp2, sp2, List.mem_cons_of_mem _ hmem, hsuf2, hp2⟩
    · obtain ⟨lp2, sp2, hmem, hsuf2, hp2⟩ := ih h
      exact ⟨lp2, sp2, List.mem_cons_of_mem _ hmem, hsuf2, hp2⟩

theorem removeWips_deleteWip_mem (ps : List (String × String)) (b k : String)
    (h : Event.deleteWip b k ∈ (removeWips ps).1) :
    ∃ lp sp, (lp, sp) ∈ ps ∧
      (strEndsWith lp ".txt.gz" || strEndsWith lp ".jsonl.bz2") = true ∧
      parse_s3_path (sp ++ ".wip") = .ok (b, k) := by
  induction ps with
  | nil => simp [removeWips] at h
  | cons p rest ih =>
    rcases p with ⟨lp, sp⟩
    unfold removeWips at h
    split at h
    · rename_i hsuf
      split at h
      · simp at h
      · rename_i b0 k0 hparse
        rcases hcr : removeWips rest with ⟨evs, err⟩
        rw [hcr] at h
        dsimp only at h
        rcases List.mem_cons.mp h with h | h
        · injection h with hb hk
          subst hb
          subst hk
          exact ⟨lp, sp, List.mem_cons_self _ _, hsuf, hparse⟩
        · obtain ⟨lp2, sp2, hmem, hsuf2, hp2⟩ := ih (by rw [hcr]; exact h)
          exact ⟨lp2, sp2, List.mem_cons_of_mem _ hmem, hsuf2, hp2⟩
    · obtain ⟨lp2, sp2, hmem, hsuf2, hp2⟩ := ih h
      exact ⟨lp2, sp2, List.mem_cons_of_mem _ hmem, hsuf2, hp2⟩

theorem setTsEvents_shape (ps : List (String × String)) (e : Event)
    (h : e ∈ setTsEvents ps) : ∃ b k, e = Event.setTsMeta b k := by
  induction ps with
  | nil => simp [setTsEvents] at h
  | cons p rest ih =>
    rcases p with ⟨lp, sp⟩
    unfold setTsEvents at h
    split at h
    · exact ih h
    · rename_i b k hp
      rcases List.mem_cons.mp h with h | h
      · exact ⟨b, k, h⟩
      · exact ih h

theorem uploadStep_failed_events (args : Args) (uploadOk : String → String → Bool)
    (now : ℚ) (st : LoopState) (p : String × String) (evs : List Event)
    (h : uploadStep args uploadOk now st p = .failed evs) :
    ∀ e ∈ evs, isWipEvent e = false := by
  unfold uploadStep at h
  split at h
  · exact absurd h (by simp)
  · split at h
    · exact absurd h (by simp)
    · injection h with he
      subst he
      intro e he
      rcases List.mem_singleton.mp he with rfl
      rfl

theorem uploadStep_success_events (args : Args) (uploadOk : String → String → Bool)
    (now : ℚ) (st : LoopState) (p : String × String) (evs : List Event)
    (st2 : LoopState) (h : uploadStep args uploadOk now st p = .success evs st2) :
    ∀ e ∈ evs, isWipEvent e = false := by
  unfold uploadStep at h
  split at h
  · exact absurd h (by simp)
  · split at h
    · injection h with he hst
      subst he
      intro e he
      rcases List.mem_cons.mp he with rfl | he
      · rfl
      · split at he
        · rcases List.mem_singleton.mp he with rfl
          rfl
        · exact absurd he (by simp)
    · exact absurd h (by simp)

theorem uploadStep_success_uploaded (args : Args) (uploadOk : String → String → Bool)
    (now : ℚ) (st : LoopState) (p : String × String) (evs : List Event)
    (st2 : LoopState) (h : uploadStep args uploadOk now st p = .success evs st2) :
    st2.uploaded = st.uploaded ++ [p] := by
  unfold uploadStep at h
  split at h
  · exact absurd h (by simp)
  · split at h
    · injection h with he hst
      subst hst
      rfl
    · exact absurd h (by simp)

theorem resolvePair_failed_eq (args : Args) (view : S3View)
    (uploadOk : String → String → Bool) (now : ℚ) (st : LoopState)
    (prev : Option (String × String)) (p : String × String) (evs : List Event)
    (h : resolvePair args view uploadOk now st prev p = .failed evs) :
    uploadStep args uploadOk now st p = .failed evs := by
  unfold resolvePair at h
  split at h
  · exact absurd h (by simp)
  · split at h
    · exact absurd h (by simp)
    · split at h
      · exact absurd h (by simp)
      · split at h
        · exact absurd h (by simp)
        · exact absurd h (by simp)
        · exact h

theorem resolvePair_success_eq (args : Args) (view : S3View)
    (uploadOk : String → String → Bool) (now : ℚ) (st : LoopState)
    (prev : Option (String × String)) (p : String × String) (evs : List Event)
    (st2 : LoopState)
    (h : resolvePair args view uploadOk now st prev p = .success evs st2) :
    uploadStep args uploadOk now st p = .success evs st2 := by
  unfold resolvePair at h
  split at h
  · exact absurd h (by simp)
  · split at h
    · exact absurd h (by simp)
    · split at h
      · exact absurd h (by simp)
      · split at h
        · exact absurd h (by simp)
        · exact absurd h (by simp)
        · exact h

theorem processPairs_no_wip_fuel (args : Args) (view : S3View)
    (uploadOk : String → String → Bool) (now : ℚ) :
    ∀ (n : Nat) (pairs : List (String × String)) (st : LoopState)
      (prev : Option (String × String)), pairs.length ≤ n →
      ∀ oc evs,
        (oc, evs) ∈ (processPairs args view uploadOk now st prev pairs).results →
        ∀ e ∈ evs, isWipEvent e = false := by
  intro n
  induction n with
  | zero =>
    intro pairs st prev hlen oc evs hmem
    have hnil : pairs = [] := List.eq_nil_of_length_eq_zero (Nat.le_zero.mp hlen)
    subst hnil
    simp [processPairs] at hmem
  | succ n ih =>
    intro pairs st prev hlen oc evs hmem e he
    cases pairs with
    | nil => simp [processPairs] at hmem
    | cons p rest =>
      unfold processPairs at hmem
      dsimp only at hmem
      cases hres : resolvePair args view uploadOk now st prev p with
      | fatal =>
        rw [hres] at hmem
        simp at hmem
      | skip oc2 =>
        rw [hres] at hmem
        dsimp only at hmem
        cases rest with
        | nil =>
          dsimp only at hmem
          rcases List.mem_singleton.mp hmem with h1
          injection h1 with h1a h1b
          subst h1b
          simp at he
        | cons q rest2 =>
          dsimp only at hmem
          split at hmem
          · rcases hrec : processPairs args view uploadOk now st (some q) rest2
              with ⟨rs, st2, ex⟩
            rw [hrec] at hmem
            dsimp only at hmem
            rcases List.mem_cons.mp hmem with h1 | hmem2
            · injection h1 with h1a h1b
              subst h1b
              simp at he
            · rcases List.mem_cons.mp hmem2 with h1 | hmem3
              · injection h1 with h1a h1b
                subst h1b
                simp at he
              · have hlen2 : rest2.length ≤ n := by
                  simp only [List.length_cons] at hlen
                  omega
                exact ih rest2 st (some q) hlen2 oc evs
                  (by rw [hrec]; exact hmem3) e he
          · rcases hrec : processPairs args view uploadOk now st (some p) (q :: rest2)
              with ⟨rs, st2, ex⟩
            rw [hrec] at hmem
            dsimp only at hmem
            rcases List.mem_cons.mp hmem with h1 | hmem2
            · injection h1 with h1a h1b
              subst h1b
              simp at he
            · have hlen2 : (q :: rest2).length ≤ n := by
                simp only [List.length_cons] at hlen ⊢
                omega
              exact ih (q :: rest2) st (some p) hlen2 oc evs
                (by rw [hrec]; exact hmem2) e he
      | failed evs2 =>
        rw [hres] at hmem
        dsimp only at hmem
        cases rest with
        | nil =>
          dsimp only at hmem
          rcases List.mem_singleton.mp hmem with h1
          injection h1 with h1a h1b
          exact uploadStep_failed_events args uploadOk now st p evs2
            (resolvePair_failed_eq args view uploadOk now st prev p evs2 hres) e
            (h1b ▸ he)
        | cons q rest2 =>
          dsimp only at hmem
          split at hmem
          · rcases hrec : processPairs args view uploadOk now st (some q) rest2
              with ⟨rs, st2, ex⟩
            rw [hrec] at hmem
            dsimp only at hmem
            rcases List.mem_cons.mp hmem with h1 | hmem2
            · injection h1 with h1a h1b
              exact uploadStep_failed_events args uploadOk now st p evs2
                (resolvePair_failed_eq args view uploadOk now st prev p evs2 hres) e
                (h1b ▸ he)
            · rcases List.mem_cons.mp hmem2 with h1 | hmem3
              · injection h1 with h1a h1b
                subst h1b
                simp at he
              · have hlen2 : rest2.length ≤ n := by
                  simp only [List.length_cons] at hlen
                  omega
                exact ih rest2 st (some q) hlen2 oc evs
                  (by rw [hrec]; exact hmem3) e he
          · rcases hrec : processPairs args view uploadOk now st (some p) (q :: rest2)
              with ⟨rs, st2, ex⟩
            rw [hrec] at hmem
            dsimp only at hmem
            rcases List.mem_cons.mp hmem with h1 | hmem2
            · injection h1 with h1a h1b
              exact uploadStep_failed_events args uploadOk now st p evs2
                (resolvePair_failed_eq args view uploadOk now st prev p evs2 hres) e
                (h1b ▸ he)
            · have hlen2 : (q :: rest2).length ≤ n := by
                simp only [List.length_cons] at hlen ⊢
                omega
              exact ih (q :: rest2) st (some p) hlen2 oc evs
                (by rw [hrec]; exact hmem2) e he
      | success evs2 st1 =>
        rw [hres] at hmem
        dsimp only at hmem
        rcases hrec : processPairs args view uploadOk now st1 (some p) rest
          with ⟨rs, st2, ex⟩
        rw [hrec] at hmem
        dsimp only at hmem
        rcases List.mem_cons.mp hmem with h1 | hmem2
        · injection h1 with h1a h1b
          exact uploadStep_success_events args uploadOk now st p evs2 st1
            (resolvePair_success_eq args view uploadOk now st prev p evs2 st1 hres) e
            (h1b ▸ he)
        · have hlen2 : rest.length ≤ n := by
            simp only [List.length_cons] at hlen
            omega
          exact ih rest st1 (some p) hlen2 oc evs (by rw [hrec]; exact hmem2) e he

theorem processPairs_uploaded_sub_fuel (args : Args) (view : S3View)
    (uploadOk : String → String → Bool) (now : ℚ) :
    ∀ (n : Nat) (pairs : List (String × String)) (st : LoopState)
      (prev : Option (String × String)), pairs.length ≤ n →
      ∀ pr, pr ∈ (processPairs args view uploadOk now st prev pairs).st.uploaded →
        pr ∈ st.uploaded ∨ pr ∈ pairs := by
  intro n
  induction n with
  | zero =>
    intro pairs st prev hlen pr hmem
    have hnil : pairs = [] := List.eq_nil_of_length_eq_zero (Nat.le_zero.mp hlen)
    subst hnil
    exact Or.inl hmem
  | succ n ih =>
    intro pairs st prev hlen pr hmem
    cases pairs with
    | nil => exact Or.inl hmem
    | cons p rest =>
      unfold processPairs at hmem
      dsimp only at hmem
      cases hres : resolvePair args view uploadOk now st prev p with
      | fatal =>
        rw [hres] at hmem
        exact Or.inl hmem
      | skip oc2 =>
        rw [hres] at hmem
        dsimp only at hmem
        cases rest with
        | nil => exact Or.inl hmem
        | cons q rest2 =>
          dsimp only at hmem
          split at hmem
          · rcases hrec : processPairs args view uploadOk now st (some q) rest2
              with ⟨rs, st2, ex⟩
            rw [hrec] at hmem
            dsimp only at hmem
            have hlen2 : rest2.length ≤ n := by
              simp only [List.length_cons] at hlen
              omega
            rcases ih rest2 st (some q) hlen2 pr (by rw [hrec]; exact hmem)
              with h | h
            · exact Or.inl h
            · exact Or.inr (List.mem_cons_of_mem _ (List.mem_cons_of_mem _ h))
          · rcases hrec : processPairs args view uploadOk now st (some p) (q :: rest2)
              with ⟨rs, st2, ex⟩
            rw [hrec] at hmem
            dsimp only at hmem
            have hlen2 : (q :: rest2).length ≤ n := by
              simp only [List.length_cons] at hlen ⊢
              omega
            rcases ih (q :: rest2) st (some p) hlen2 pr (by rw [hrec]; exact hmem)
              with h | h
            · exact Or.inl h
            · exact Or.inr (List.mem_cons_of_mem _ h)
      | failed evs2 =>
        rw [hres] at hmem
        dsimp only at hmem
        cases rest with
        | nil => exact Or.inl hmem
        | cons q rest2 =>
          dsimp only at hmem
          split at hmem
          · rcases hrec : processPairs args view uploadOk now st (some q) rest2
              with ⟨rs, st2, ex⟩
            rw [hrec] at hmem
            dsimp only at hmem
            have hlen2 : rest2.length ≤ n := by
              simp only [List.length_cons] at hlen
              omega
            rcases ih rest2 st (some q) hlen2 pr (by rw [hrec]; exact hmem)
              with h | h
            · exact Or.inl h
            · exact Or.inr (List.mem_cons_of_mem _ (List.mem_cons_of_mem _ h))
          · rcases hrec : processPairs args view uploadOk now st (some p) (q :: rest2)
              with ⟨rs, st2, ex⟩
            rw [hrec] at hmem
            dsimp only at hmem
            have hlen2 : (q :: rest2).length ≤ n := by
              simp only [List.length_cons] at hlen ⊢
              omega
            rcases ih (q :: rest2) st (some p) hlen2 pr (by rw [hrec]; exact hmem)
              with h | h
            · exact Or.inl h
            · exact Or.inr (List.mem_cons_of_mem _ h)
      | success evs2 st1 =>
        rw [hres] at hmem
        dsimp only at hmem
        rcases hrec : processPairs args view uploadOk now st1 (some p) rest
          with ⟨rs, st2, ex⟩
        rw [hrec] at hmem
        dsimp only at hmem
        have hlen2 : rest.length ≤ n := by
          simp only [List.length_cons] at hlen
          omega
        rcases ih rest st1 (some p) hlen2 pr (by rw [hrec]; exact hmem) with h | h
        · rw [uploadStep_success_uploaded args uploadOk now st p evs2 st1
            (resolvePair_success_eq args view uploadOk now st prev p evs2 st1 hres)]
            at h
          rcases List.mem_append.mp h with h | h
          · exact Or.inl h
          · exact Or.inr (List.mem_cons.mpr (Or.inl (List.mem_singleton.mp h)))
        · exact Or.inr (List.mem_cons_of_mem _ h)

/-- C10: WIP markers are created (under `--create-wip`) and removed (under
`--remove-wip`) only for file pairs whose local path ends in `.txt.gz` or
`.jsonl.bz2`, at the key parsed from `<s3_path>.wip`; the pair loop itself
never creates or deletes a marker.  Hence a pair with any other local
suffix never receives WIP protection. -/
theorem claimC10 (args : Args) (fs : List (String × LocalFile)) (view : S3View)
    (uploadOk : String → String → Bool) (now : ℚ) (b k : String) :
    (Event.putWip b k ∈ (localToS3Main args fs view uploadOk now).preEvents →
      ∃ lp sp, (lp, sp) ∈ chunk2 args.files ∧
        (strEndsWith lp ".txt.gz" || strEndsWith lp ".jsonl.bz2") = true ∧
        parse_s3_path (sp ++ ".wip") = .ok (b, k)) ∧
    (Event.deleteWip b k ∈ (localToS3Main args fs view uploadOk now).postEvents →
      ∃ lp sp, (lp, sp) ∈ chunk2 args.files ∧
        (strEndsWith lp ".txt.gz" || strEndsWith lp ".jsonl.bz2") = true ∧
        parse_s3_path (sp ++ ".wip") = .ok (b, k)) ∧
    (∀ oc evs, (oc, evs) ∈ (localToS3Main args fs view uploadOk now).results →
      Event.putWip b k ∉ evs ∧ Event.deleteWip b k ∉ evs) := by
  have hpre : ∀ pre flag,
      (if args.createWip then createWips (chunk2 args.files) else ([], false))
        = (pre, flag) →
      Event.putWip b k ∈ pre →
      ∃ lp sp, (lp, sp) ∈ chunk2 args.files ∧
        (strEndsWith lp ".txt.gz" || strEndsWith lp ".jsonl.bz2") = true ∧
        parse_s3_path (sp ++ ".wip") = .ok (b, k) := by
    intro pre flag hmatch hmem
    cases hc : args.createWip
    · rw [hc, if_neg Bool.false_ne_true] at hmatch
      injection hmatch with h1 h2
      rw [← h1] at hmem
      simp at hmem
    · rw [hc, if_pos rfl] at hmatch
      apply createWips_putWip_mem
      rw [hmatch]
      exact hmem
  have hsub : ∀ rs stX exX,
      processPairs args view uploadOk now ⟨fs, [], [], []⟩ none (chunk2 args.files)
        = ⟨rs, stX, exX⟩ →
      ∀ pr, pr ∈ stX.uploaded → pr ∈ chunk2 args.files := by
    intro rs stX exX hproc pr hpr
    rcases processPairs_uploaded_sub_fuel args view uploadOk now
        (chunk2 args.files).length (chunk2 args.files) ⟨fs, [], [], []⟩ none
        (le_refl _) pr (by rw [hproc]; exact hpr) with h | h
    · simp at h
    · exact h
  have hwip : ∀ (ups : List (String × String)) wipEvs flag,
      (∀ pr, pr ∈ ups → pr ∈ chunk2 args.files) →
      (if args.removeWip then removeWips ups else ([], false)) = (wipEvs, flag) →
      Event.deleteWip b k ∈ wipEvs →
      ∃ lp sp, (lp, sp) ∈ chunk2 args.files ∧
        (strEndsWith lp ".txt.gz" || strEndsWith lp ".jsonl.bz2") = true ∧
        parse_s3_path (sp ++ ".wip") = .ok (b, k) := by
    intro ups wipEvs flag hs hmatch hmem
    cases hr : args.removeWip
    · rw [hr, if_neg Bool.false_ne_true] at hmatch
      injection hmatch with h1 h2
      rw [← h1] at hmem
      simp at hmem
    · rw [hr, if_pos rfl] at hmatch
      obtain ⟨lp, sp, hmemu, hsuf, hp⟩ :=
        removeWips_deleteWip_mem ups b k (by rw [hmatch]; exact hmem)
      exact ⟨lp, sp, hs _ hmemu, hsuf, hp⟩
  have hres3 : ∀ rs stX exX,
      processPairs args view uploadOk now ⟨fs, [], [], []⟩ none (chunk2 args.files)
        = ⟨rs, stX, exX⟩ →
      ∀ oc evs, (oc, evs) ∈ rs →
        Event.putWip b k ∉ evs ∧ Event.deleteWip b k ∉ evs := by
    intro rs stX exX hproc oc evs hmem
    refine ⟨fun hin => ?_, fun hin => ?_⟩
    · have hW := processPairs_no_wip_fuel args view uploadOk now
        (chunk2 args.files).length (chunk2 args.files) ⟨fs, [], [], []⟩ none
        (le_refl _) oc evs (by rw [hproc]; exact hmem) _ hin
      simp [isWipEvent] at hW
    · have hW := processPairs_no_wip_fuel args view uploadOk now
        (chunk2 args.files).length (chunk2 args.files) ⟨fs, [], [], []⟩ none
        (le_refl _) oc evs (by rw [hproc]; exact hmem) _ hin
      simp [isWipEvent] at hW
  unfold localToS3Main
  split
  · exact ⟨by simp, by simp, by simp⟩
  · split
    · exact ⟨by simp, by simp, by simp⟩
    · split
      · rename_i pre hmatch
        refine ⟨fun hmem => hpre pre true hmatch hmem, fun hmem => ?_, ?_⟩
        · simp at hmem
        · intro oc evs hmem
          simp at hmem
      · rename_i pre hmatch
        split
        · rename_i rs stX c hproc
          refine ⟨fun hmem => hpre pre false hmatch hmem, fun hmem => ?_, ?_⟩
          · simp at hmem
          · intro oc evs hmem
            exact hres3 rs stX (some c) hproc oc evs hmem
        · rename_i rs stF hproc
          split
          · rename_i wipEvs hrw
            refine ⟨fun hmem => hpre pre false hmatch hmem, fun hmem => ?_, ?_⟩
            · exact hwip stF.uploaded wipEvs true (hsub rs stF none hproc) hrw hmem
            · intro oc evs hmem
              exact hres3 rs stF none hproc oc evs hmem
          · rename_i wipEvs hrw
            refine ⟨fun hmem => hpre pre false hmatch hmem, fun hmem => ?_, ?_⟩
            · rcases List.mem_append.mp hmem with hmem | hmem
              · exact hwip stF.uploaded wipEvs false (hsub rs stF none hproc) hrw hmem
              · cases hst : args.setTimestamp
                · rw [hst] at hmem
                  simp at hmem
                · rw [hst, if_pos rfl] at hmem
                  obtain ⟨b2, k2, habs⟩ := setTsEvents_shape stF.uploaded _ hmem
                  exact absurd habs (by simp)
            · intro oc evs hmem
              exact hres3 rs stF none hproc oc evs hmem

/-- Witness for C10: in a concrete `--create-wip` run the created marker
key comes from the `.jsonl.bz2` pair. -/
theorem claimC10_witness :
    Event.putWip "b" "x.jsonl.bz2.wip" ∈
        (localToS3Main
          ⟨["x.jsonl.bz2", "s3://b/x.jsonl.bz2"], false, false, false, false, true,
            false, [".stamp"]⟩
          [("x.jsonl.bz2", ⟨5, 0⟩)] ⟨fun _ _ => true, fun _ _ => none⟩
          (fun _ _ => true) 0).preEvents ∧
      ∃ lp sp,
        (lp, sp) ∈ chunk2 ["x.jsonl.bz2", "s3://b/x.jsonl.bz2"] ∧
        (strEndsWith lp ".txt.gz" || strEndsWith lp ".jsonl.bz2") = true ∧
        parse_s3_path (sp ++ ".wip") = .ok ("b", "x.jsonl.bz2.wip") :=
  ⟨by decide,
    (claimC10
      ⟨["x.jsonl.bz2", "s3://b/x.jsonl.bz2"], false, false, false, false, true,
        false, [".stamp"]⟩
      [("x.jsonl.bz2", ⟨5, 0⟩)] ⟨fun _ _ => true, fun _ _ => none⟩
      (fun _ _ => true) 0 "b" "x.jsonl.bz2.wip").1 (by decide)⟩
